import Mathlib

/-!
Verification of the twisted.python.logger event pipeline.

Shallow embedding of the source files under twisted/python/logger/:
  _format.py   (formatEvent, flatFormat, flatKey, flattenEvent,
                formatUnformattableEvent, CallMapping, formatWithCall)
  _observer.py (LogPublisher)
  _filter.py   (FilteringLogObserver, LogLevelFilterPredicate)
  _global.py   (LogBeginner)
  _file.py     (FileLogObserver)
  _json.py     (objectSaveHook, objectLoadHook, eventAsJSON)
  _saveload.py (saveEventJSON)

Python templates are represented by the output of string.Formatter.parse
(the repository code only ever consumes that parse output): a list of
tuples (literalText, fieldName?, formatSpec, conversion).  Python values
are represented by a small universe PyVal closed under the operations the
logging code performs on them (str, repr, zero-argument call).  Fallible
Python code is embedded in the Except monad; an Except.error value models
a raised exception.
-/

set_option autoImplicit false

namespace TwistedLogger

/-- Modelled from the spec: twisted/python/logger/_levels.py is not in the
source tree (only importers of it are).  The spec says: a small totally
ordered enumeration debug < info < warn < error < critical, each level
carrying an integer priority used for comparisons. -/
inductive LogLevel : Type where
  | debug
  | info
  | warn
  | error
  | critical
  deriving DecidableEq, Repr

/-- Modelled from the spec: the integer priority of a level. -/
def LogLevel.priority : LogLevel → Nat
  | .debug => 0
  | .info => 1
  | .warn => 2
  | .error => 3
  | .critical => 4

/-- Modelled from the spec: the name of a level constant. -/
def LogLevel.name : LogLevel → String
  | .debug => "debug"
  | .info => "info"
  | .warn => "warn"
  | .error => "error"
  | .critical => "critical"

/-- Modelled from the spec: getattr(LogLevel, name, None), used by the JSON
level loader to map a persisted level name back to a level constant. -/
def LogLevel.fromName? : String → Option LogLevel
  | "debug" => some .debug
  | "info" => some .info
  | "warn" => some .warn
  | "error" => some .error
  | "critical" => some .critical
  | _ => none

/-- A universe of Python values, closed under the operations the formatting
engine performs: str(), repr(), zero-argument call.  thunk models a pure
zero-argument callable; raisingThunk a callable that raises; badStr an
object whose str() raises but whose repr() succeeds; badRepr an object for
which both raise. -/
inductive PyVal : Type where
  | str (s : String)
  | int (n : Int)
  | obj (s : String)
  | thunk (v : PyVal)
  | raisingThunk (msg : String)
  | badStr (r : String)
  | badRepr
  | level (l : LogLevel)
  | pyNone
  deriving DecidableEq, Repr

/-- Python unicode()/str() on a value; Except.error models a raised
exception from a value's own __str__. -/
def pyStr : PyVal → Except String String
  | .str s => .ok s
  | .int n => .ok (toString n)
  | .obj s => .ok s
  | .thunk _ => .ok "<function>"
  | .raisingThunk _ => .ok "<function>"
  | .badStr _ => .error "Exception in __str__"
  | .badRepr => .error "Exception in __str__"
  | .level l => .ok ("<LogLevel=" ++ l.name ++ ">")
  | .pyNone => .ok "None"

/-- Python repr() on a value. -/
def pyRepr : PyVal → Except String String
  | .str s => .ok ("'" ++ s ++ "'")
  | .int n => .ok (toString n)
  | .obj s => .ok s
  | .thunk _ => .ok "<function>"
  | .raisingThunk _ => .ok "<function>"
  | .badStr r => .ok r
  | .badRepr => .error "Exception in __repr__"
  | .level l => .ok ("<LogLevel=" ++ l.name ++ ">")
  | .pyNone => .ok "None"

/-- Calling a value with no arguments; non-callables raise TypeError. -/
def pyCall : PyVal → Except String PyVal
  | .thunk v => .ok v
  | .raisingThunk msg => .error msg
  | _ => .error "TypeError: object is not callable"

/-- Modelled from the spec: twisted.python.reflect.safe_repr is not in the
source tree.  Per the spec it best-effort-represents a value and never
raises: repr() when that works, a placeholder otherwise. -/
def safeRepr (v : PyVal) : String :=
  match pyRepr v with
  | .ok s => s
  | .error _ => "<unprintable>"

/-- One substitution field of a parsed template: name (possibly ending in
the call marker), format spec, and conversion character. -/
structure FieldRef : Type where
  name : String
  spec : String
  conv : Option Char
  deriving DecidableEq, Repr

/-- A template as returned by string.Formatter.parse: a list of
(literalText, field?) tuples.  A tuple with no field carries trailing
literal text (Python yields (text, None, None, None) for it). -/
abbrev Template := List (String × Option FieldRef)

/-- The value found under the "log_format" key: decodable text or bytes
(both carrying a parsed template), or a non-text object (which makes
formatEvent raise TypeError into its degradation path). -/
inductive FormatVal : Type where
  | text (t : Template)
  | bytes (t : Template)
  | nonText
  deriving DecidableEq, Repr

/-- A logging event: the reserved log_format / log_flattened keys plus the
remaining fields (an insertion-ordered string-keyed dict). -/
structure FEvent : Type where
  logFormat : Option FormatVal := none
  logFlattened : Option (List (String × PyVal)) := none
  fields : List (String × PyVal) := []
  deriving DecidableEq, Repr

/-- First-match lookup in an insertion-ordered dict. -/
def lookupVal {α : Type} : List (String × α) → String → Option α
  | [], _ => none
  | (k, v) :: rest, key => if k = key then some v else lookupVal rest key

/-- key.endswith("()") and key[:-2] in one step: some base when the name
carries the call marker, none otherwise. -/
def stripCall (s : String) : Option String :=
  match s.data.reverse with
  | ')' :: '(' :: rest => some (String.mk rest.reverse)
  | _ => none

/-- CallMapping.__getitem__ composed with Formatter.get_field: a trailing
"()" in the field name means the looked-up value is invoked with no
arguments before use. -/
def getFieldCall (ev : FEvent) (name : String) : Except String PyVal :=
  match lookupVal ev.fields ((stripCall name).getD name) with
  | none => .error ("KeyError: " ++ (stripCall name).getD name)
  | some v => if (stripCall name).isSome then pyCall v else .ok v

/-- Formatter.convert_field: !s is str(), !r is repr(), no conversion is
the identity, anything else raises ValueError. -/
def convertField (v : PyVal) : Option Char → Except String PyVal
  | none => .ok v
  | some 's' => (pyStr v).map PyVal.str
  | some 'r' => (pyRepr v).map PyVal.str
  | some _ => .error "ValueError: Unknown conversion specifier"

/-- The numeric value of a decimal digit character, if it is one. -/
def charDigit? (c : Char) : Option Nat :=
  if 48 ≤ c.toNat ∧ c.toNat ≤ 57 then some (c.toNat - 48) else none

/-- Decimal parsing of a character list. -/
def digitsVal? : List Char → Nat → Option Nat
  | [], acc => some acc
  | c :: cs, acc =>
    match charDigit? c with
    | some d => digitsVal? cs (acc * 10 + d)
    | none => none

/-- int(s) for a non-empty all-digit string (a structural model of the
stdlib parse used for bare-width format specs). -/
def decimalWidth? (s : String) : Option Nat :=
  match s.data with
  | [] => none
  | l => digitsVal? l 0

/-- format(value, spec).  The empty spec is str(value).  As a partial model
of the stdlib format-spec mini-language, a bare decimal width left-aligns
strings and right-aligns integers; every other non-empty spec raises. -/
def formatField (v : PyVal) (spec : String) : Except String String :=
  if spec = "" then pyStr v
  else
    match v, decimalWidth? spec with
    | .str s, some w => .ok (s ++ String.mk (List.replicate (w - s.length) ' '))
    | .int n, some w =>
        .ok (String.mk (List.replicate (w - (toString n).length) ' ') ++ toString n)
    | _, _ => .error "ValueError: bad format spec"

/-- The accumulation loop of vformat with a CallMapping (formatWithCall,
_format.py lines 353-381): emit each tuple's literal text, then for each
field look it up (calling it when call-marked), apply the conversion, then
apply the format spec. -/
def formatWithCallGo (ev : FEvent) : Template → String → Except String String
  | [], acc => .ok acc
  | p :: rest, acc =>
    match p.2 with
    | none => formatWithCallGo ev rest (acc ++ p.1)
    | some f =>
      match getFieldCall ev f.name with
      | .error e => .error e
      | .ok v =>
        match convertField v f.conv with
        | .error e => .error e
        | .ok v2 =>
          match formatField v2 f.spec with
          | .error e => .error e
          | .ok s => formatWithCallGo ev rest (acc ++ p.1 ++ s)

/-- formatWithCall (_format.py lines 353-381). -/
def formatWithCall (t : Template) (ev : FEvent) : Except String String :=
  formatWithCallGo ev t ""

/-- flatKey (_format.py lines 99-122): the cache key derived from
(fieldName, formatSpec, conversion); None renders as the string "None"
for the field name and as the empty string for spec and conversion. -/
def flatKey (fieldName : Option String) (spec : String) (conv : Option Char) : String :=
  (match fieldName with
   | some n => n
   | none => "None")
  ++ "!"
  ++ (match conv with
      | some c => String.mk [c]
      | none => "")
  ++ ":" ++ spec

/-- The flatKey of a parse tuple, with the source's (x or "") defaulting. -/
def tupleKey (f : Option FieldRef) : String :=
  flatKey (f.map FieldRef.name)
    (match f with
     | some fr => fr.spec
     | none => "")
    (match f with
     | some fr => fr.conv
     | none => none)

/-- The per-field resolution in flattenEvent's loop (_format.py lines
146-162): strip the call marker, look the field up in the event (via
Formatter.get_field on the raw event dict), invoke it when call-marked,
then apply the conversion — str for !s, repr for !r, and the identity for
every other conversion (the loop never validates the conversion). -/
def flatResolve (ev : FEvent) (f : FieldRef) : Except String PyVal :=
  match lookupVal ev.fields ((stripCall f.name).getD f.name) with
  | none => .error ("KeyError: " ++ (stripCall f.name).getD f.name)
  | some fieldValue =>
    match (if (stripCall f.name).isSome then pyCall fieldValue
           else .ok fieldValue : Except String PyVal) with
    | .error e => .error e
    | .ok v1 =>
      match f.conv with
      | some 's' => (pyStr v1).map PyVal.str
      | some 'r' => (pyRepr v1).map PyVal.str
      | _ => .ok v1

/-- The loop of flattenEvent (_format.py lines 137-164), instrumented with
the list of field names whose resolved value was invoked (the thunk
invocations), for reasoning about call-at-most-once behavior.  Faithful
ordering: the cache key is computed and checked before the fieldName is
inspected, so a trailing-literal tuple (fieldName None) only raises
AttributeError when its key "None!:" is not already cached. -/
def flattenLoop (ev : FEvent) :
    Template → List (String × PyVal) → List String →
    Except String (List (String × PyVal) × List String)
  | [], fields, calls => .ok (fields, calls)
  | p :: rest, fields, calls =>
    let key := tupleKey p.2
    if (lookupVal fields key).isSome then flattenLoop ev rest fields calls
    else
      match p.2 with
      | none => .error "AttributeError: NoneType object has no attribute endswith"
      | some f =>
        match flatResolve ev f with
        | .error e => .error e
        | .ok v2 =>
          flattenLoop ev rest (fields ++ [(key, v2)])
            (match stripCall f.name with
             | some base => calls ++ [base]
             | none => calls)

/-- flattenEvent (_format.py lines 126-166).  Reads event["log_format"]
unguarded (KeyError when absent), runs the loop, and stores the resulting
dict under "log_flattened" in the event.  The second component records the
thunk invocations performed. -/
def flattenEventE (ev : FEvent) : Except String (FEvent × List String) :=
  match ev.logFormat with
  | none => .error "KeyError: log_format"
  | some .nonText => .error "TypeError: parse expects a string"
  | some (.text t) =>
      match flattenLoop ev t [] [] with
      | .error e => .error e
      | .ok (fields, calls) => .ok ({ ev with logFlattened := some fields }, calls)
  | some (.bytes t) =>
      match flattenLoop ev t [] [] with
      | .error e => .error e
      | .ok (fields, calls) => .ok ({ ev with logFlattened := some fields }, calls)

/-- The accumulation loop of flatFormat: emit each tuple's literal text
followed by unicode() of the value cached under the tuple's flatKey.  The
format spec is not re-applied and a missing key raises KeyError. -/
def flatFormatGo (fields : List (String × PyVal)) :
    Template → String → Except String String
  | [], acc => .ok acc
  | p :: rest, acc =>
    match lookupVal fields (tupleKey p.2) with
    | none => .error ("KeyError: " ++ tupleKey p.2)
    | some v =>
      match pyStr v with
      | .error e => .error e
      | .ok s => flatFormatGo fields rest (acc ++ p.1 ++ s)

/-- flatFormat (_format.py lines 71-95): re-parse the template stored under
"log_format" and render from the cached "log_flattened" values. -/
def flatFormatE (ev : FEvent) : Except String String :=
  match ev.logFlattened with
  | none => .error "KeyError: log_flattened"
  | some fields =>
    match ev.logFormat with
    | none => .error "KeyError: log_format"
    | some .nonText => .error "TypeError: parse expects a string"
    | some (.text t) | some (.bytes t) => flatFormatGo fields t ""

/-- The body of formatEvent's try block (_format.py lines 43-64): the flat
path when "log_flattened" is present, the empty string when "log_format"
is absent, vformat for text or utf-8-decoded bytes, TypeError otherwise. -/
def formatEventBody (ev : FEvent) : Except String String :=
  if ev.logFlattened.isSome then flatFormatE ev
  else
    match ev.logFormat with
    | none => .ok ""
    | some (.text t) => formatWithCall t ev
    | some (.bytes t) => formatWithCall t ev
    | some .nonText => .error "TypeError: Log format must be unicode or bytes"

/-- repr() of the event dict; raises when the repr of any contained value
raises.  The log_format template is rendered as a fixed placeholder (its
repr is plain text and cannot raise). -/
def reprEvent (ev : FEvent) : Except String String := do
  let fmtPart :=
    match ev.logFormat with
    | none => ([] : List String)
    | some _ => ["'log_format': <format>"]
  let flatPart ←
    match ev.logFlattened with
    | none => pure ([] : List String)
    | some fl => do
        let parts ← fl.mapM
          (fun kv => (pyRepr kv.2).map (fun r => "'" ++ kv.1 ++ "': " ++ r))
        pure ["'log_flattened': " ++ String.intercalate ", " parts]
  let parts ← ev.fields.mapM
    (fun kv => (pyRepr kv.2).map (fun r => "'" ++ kv.1 ++ "': " ++ r))
  .ok ("\x7b" ++ String.intercalate ", " (fmtPart ++ flatPart ++ parts) ++ "\x7d")

/-- The "Recoverable data" line of the deepest fallback: a best-effort
safe_repr rendering of each key/value pair, which cannot raise. -/
def recoverableData (ev : FEvent) : String :=
  String.intercalate ", "
    (ev.fields.map (fun kv => "'" ++ kv.1 ++ "'" ++ " = " ++ safeRepr kv.2))

/-- The repr of the Failure() captured in the deepest fallback; the Failure
class lives outside the source tree and its rendering is opaque here. -/
def failureText : String := "[Failure instance]"

/-- formatUnformattableEvent (_format.py lines 170-205): try the generic
"Unable to format event ...: ..." string; if repr of the event itself
raises, fall back to the "MESSAGE LOST" string built only from safe_repr,
which cannot raise. -/
def formatUnformattableEvent (ev : FEvent) (err : String) : Except String String :=
  match reprEvent ev with
  | .ok r => .ok ("Unable to format event " ++ r ++ ": " ++ err)
  | .error _ =>
      .ok ("MESSAGE LOST: unformattable object logged: " ++ err ++ "\n"
        ++ "Recoverable data: " ++ recoverableData ev ++ "\n"
        ++ "Exception during formatting:\n" ++ failureText)

/-- formatEvent (_format.py lines 28-67): the body wrapped in the
try/except that degrades every failure through formatUnformattableEvent. -/
def formatEventE (ev : FEvent) : Except String String :=
  match formatEventBody ev with
  | .ok s => .ok s
  | .error e => formatUnformattableEvent ev e

/-- formatEvent as the total text-returning function the source promises. -/
def formatEvent (ev : FEvent) : String :=
  match formatEventE ev with
  | .ok s => s
  | .error e => e

/-- The substitution fields of a template, in template order. -/
def fieldsOf (t : Template) : List FieldRef :=
  t.filterMap (fun p => p.2)

/-- The number of distinct cache keys that cause an invocation of the
field named n during flattening: walk the template in order, skip tuples
whose flatKey was already seen, and count the remaining tuples whose field
carries the call marker for n.  This mirrors the cache discipline of
flattenEvent exactly. -/
def callKeysGo (n : String) (seen : List String) : Template → Nat
  | [] => 0
  | p :: rest =>
    let key := tupleKey p.2
    if key ∈ seen then callKeysGo n seen rest
    else
      (match p.2 with
       | some f => if stripCall f.name = some n then 1 else 0
       | none => 0) + callKeysGo n (key :: seen) rest

/-! ## LogPublisher (_observer.py)

Observers are identified by natural numbers; Python object identity is
number equality.  An environment assigns each observer its behavior when
invoked: return normally, raise, or mutate the publisher's observer list
via addObserver/removeObserver.  The delivery loop is embedded
operationally, mirroring Python's list iteration protocol: the iterator
holds an index into the (live, possibly mutated) list and stops when the
index reaches the current length.  Fuel bounds the number of loop
iterations; every theorem supplies enough fuel for its run. -/

/-- What an observer does when it is invoked with an event. -/
inductive Effect : Type where
  | ok
  | raise
  | add (j : Nat)
  | remove (j : Nat)
  deriving DecidableEq, Repr

/-- list.remove: drop the first occurrence; silently keep the list when
absent (removeObserver catches the ValueError). -/
def removeFirst (j : Nat) : List Nat → List Nat
  | [] => []
  | x :: xs => if x = j then xs else x :: removeFirst j xs

/-- The state of one delivery pass of LogPublisher.__call__: the live
observer list, the iterator index, the observers invoked so far, and the
observers that raised (brokenObservers), all in order. -/
structure PassState : Type where
  obsList : List Nat
  idx : Nat
  invoked : List Nat
  broken : List Nat
  deriving DecidableEq, Repr

/-- The delivery loop of LogPublisher.__call__ (_observer.py lines
100-109): invoke the observer at the iterator index of the live list; a
raising observer is recorded in brokenObservers and the loop continues; an
observer that calls addObserver/removeObserver mutates the live list
mid-iteration, exactly as Python list iteration sees it. -/
def runPass : Nat → (Nat → Effect) → PassState → PassState
  | 0, _, st => st
  | fuel + 1, env, st =>
    if h : st.idx < st.obsList.length then
      let o := st.obsList.get ⟨st.idx, h⟩
      let st1 := { st with invoked := st.invoked ++ [o] }
      let st2 :=
        match env o with
        | .ok => st1
        | .raise => { st1 with broken := st1.broken ++ [o] }
        | .add j =>
            { st1 with obsList :=
                if st1.obsList.contains j then st1.obsList else st1.obsList ++ [j] }
        | .remove j => { st1 with obsList := removeFirst j st1.obsList }
      runPass fuel env { st2 with idx := st2.idx + 1 }
    else st

/-- LogPublisher.__call__ (_observer.py lines 84-117): run the delivery
pass, then for each broken observer report one failure through an error
logger over a fresh publisher holding the current observer list minus that
observer (_errorLoggerForObserver, lines 120-134).  The result is the
invocation sequence and, per broken observer, the observer list of the
publisher its error report is emitted through. -/
def publisherCall (fuel : Nat) (env : Nat → Effect) (obs : List Nat) :
    List Nat × List (Nat × List Nat) :=
  let s := runPass fuel env { obsList := obs, idx := 0, invoked := [], broken := [] }
  (s.invoked, s.broken.map (fun i => (i, s.obsList.filter (fun o => o ≠ i))))

/-! ## FilteringLogObserver (_filter.py) -/

/-- PredicateResult plus a fourth value standing for any object outside
the three constants (shouldLogEvent compares against each constant and
raises TypeError for anything else). -/
inductive PredResult : Type where
  | yes
  | no
  | maybe
  | invalid
  deriving DecidableEq, Repr

/-- FilteringLogObserver.shouldLogEvent (_filter.py lines 62-81): evaluate
the predicates in order; yes and no short-circuit; maybe continues; an
exhausted chain returns True; anything else raises TypeError. -/
def shouldLogEvent {α : Type} : List (α → PredResult) → α → Except String Bool
  | [], _ => .ok true
  | p :: rest, e =>
    match p e with
    | .yes => .ok true
    | .no => .ok false
    | .maybe => shouldLogEvent rest e
    | .invalid => .error "TypeError: Invalid predicate result"

/-- FilteringLogObserver.__call__ (_filter.py lines 84-91): the list of
events forwarded downstream — the event itself when shouldLogEvent says
yes, nothing when it says no; a TypeError from shouldLogEvent propagates. -/
def filteringObserverCall {α : Type} (preds : List (α → PredResult)) (e : α) :
    Except String (List α) :=
  match shouldLogEvent preds e with
  | .ok true => .ok [e]
  | .ok false => .ok []
  | .error m => .error m

/-- The dot-separated proper prefixes of a namespace, most specific first
(_filter.py lines 132-139). -/
def namespacePrefixes (segs : List String) : List String :=
  (List.range segs.length).reverse.filterMap
    (fun i => if i = 0 then none else some (String.intercalate "." (segs.take i)))

/-- namespace.split of a character list on dots, structurally. -/
def splitDots : List Char → List Char → List String
  | [], acc => [String.mk acc.reverse]
  | c :: rest, acc =>
    if c = '.' then String.mk acc.reverse :: splitDots rest []
    else splitDots rest (c :: acc)

/-- LogLevelFilterPredicate.logLevelForNamespace (_filter.py lines
110-141): empty or absent namespace resolves to the default; otherwise the
exact namespace, then each dotted prefix most-specific-first, then the
default. -/
def logLevelForNamespace (levels : List (String × LogLevel)) (dflt : LogLevel) :
    Option String → LogLevel
  | none => dflt
  | some ns =>
    if ns = "" then dflt
    else
      match lookupVal levels ns with
      | some l => l
      | none =>
        match (namespacePrefixes (splitDots ns.data [])).findSome? (lookupVal levels) with
        | some l => l
        | none => dflt

/-- LogLevelFilterPredicate.__call__ (_filter.py lines 171-184): no when
the event lacks a level or namespace or its level priority is below the
resolved namespace level priority; maybe otherwise. -/
def levelPredicate (levels : List (String × LogLevel)) (dflt : LogLevel)
    (eventLevel : Option LogLevel) (ns : Option String) : PredResult :=
  match eventLevel with
  | none => .no
  | some el =>
    match ns with
    | none => .no
    | some nss =>
      if el.priority < (logLevelForNamespace levels dflt (some nss)).priority then .no
      else .maybe

/-! ## LogBeginner (_global.py) with its temporary observer

The events routed through the beginner's publisher are modelled with the
reserved keys the pipeline inspects (level, namespace, time, system) and a
log_format that is a literal template with no substitution fields, so its
formatEvent rendering is the literal itself (or the empty string when
absent).  The temporary observer is a nested LogPublisher over the buffer
and the critical-only filtered file observer, as wired in
LogBeginner.__init__ (_global.py lines 66-77). -/

/-- An event in the global-pipeline model. -/
structure GEvent : Type where
  level : Option LogLevel := none
  ns : Option String := none
  time : Option Nat := none
  fmt : Option String := none
  sys : Option String := none
  deriving DecidableEq, Repr

/-- formatEvent restricted to events whose template is a literal with no
substitution fields: the literal itself, or the empty string with no
log_format. -/
def gFormatEvent (e : GEvent) : String :=
  e.fmt.getD ""

/-- FileLogObserver.formatTime (_file.py lines 51-70) as configured by
LogBeginner.__init__, which passes the function (lambda event:
formatEvent(event) + newline) as the timeFormat argument: with no
log_time the default "-" is returned, but with a log_time present,
datetime.strftime is applied to that function and raises TypeError. -/
def fileObserverFormatTime (time : Option Nat) : Except String String :=
  match time with
  | none => .ok "-"
  | some _ => .error "TypeError: strftime argument must be str, not function"

/-- eventText.replace of each newline by newline-tab (_file.py line 86),
written structurally over the character list. -/
def indentNewlines : List Char → List Char
  | [] => []
  | c :: rest =>
    if c = '\n' then '\n' :: '\t' :: indentNewlines rest
    else c :: indentNewlines rest

/-- FileLogObserver.formatEvent and __call__ (_file.py lines 72-122):
nothing is written for an event that formats to empty text; otherwise the
written line is the timestamp, the system tag and the formatted event. -/
def fileObserverCall (e : GEvent) : Except String (Option String) :=
  let text := gFormatEvent e
  if text = "" then .ok none
  else
    match fileObserverFormatTime e.time with
    | .error m => .error m
    | .ok ts =>
      let sysStr :=
        match e.sys with
        | some s => s
        | none =>
            (e.ns.getD "-") ++ "#"
              ++ (match e.level with
                  | some l => "<LogLevel=" ++ l.name ++ ">"
                  | none => "-")
      .ok (some (ts ++ " [" ++ sysStr ++ "] " ++ String.mk (indentNewlines text.data) ++ "\n"))

/-- The critical-only sink of LogBeginner.__init__: a FilteringLogObserver
over the file observer with a single LogLevelFilterPredicate whose default
level is critical. -/
def criticalSinkCall (e : GEvent) : Except String (Option String) :=
  match shouldLogEvent
      [fun ev : GEvent => levelPredicate [] LogLevel.critical ev.level ev.ns] e with
  | .error m => .error m
  | .ok false => .ok none
  | .ok true => fileObserverCall e

/-- _buffer.py's default ring capacity, 64 * 1024. -/
def BUFFER_MAXIMUM : Nat := 65536

/-- Modelled from the spec: LimitedHistoryLogObserver is imported by
_global.py but its module is not in the source tree.  Per the spec it is a
bounded FIFO retaining events in arrival order and evicting the oldest at
capacity (matching _buffer.py's ring observer). -/
def bufferPush (buf : List GEvent) (e : GEvent) : List GEvent :=
  if buf.length < BUFFER_MAXIMUM then buf ++ [e] else buf.tail ++ [e]

/-- _observer.py line 21, with the braces of the Python format escaped. -/
def OBSERVER_DISABLED : String :=
  "Temporarily disabling observer \x7bobserver\x7d due to exception: \x7bfailure\x7d"

/-- _global.py lines 23-27, with the braces of the Python format escaped. -/
def MORE_THAN_ONCE_WARNING : String :=
  "Warning: primary log target selected twice at <\x7bfileNow\x7d:\x7blineNow\x7d> - "
  ++ "previously selected at <\x7bfileThen:logThen\x7d>.  Remove one of the calls to "
  ++ "beginLoggingTo."

/-- Modelled from the spec: Logger (imported from the absent _logger.py)
reports a captured observer failure by emitting one critical event carrying
the OBSERVER_DISABLED template to its observer. -/
def failureEvent : GEvent :=
  { level := some .critical, ns := some "twisted.python.logger._observer",
    time := some 0, fmt := some OBSERVER_DISABLED, sys := none }

/-- Modelled from the spec: Logger.warn emits one warning-level event
carrying the given template to its observer. -/
def warningEvent : GEvent :=
  { level := some .warn, ns := some "twisted.python.logger._global",
    time := some 0, fmt := some MORE_THAN_ONCE_WARNING, sys := none }

/-- An observer registered on the beginner's publisher: the temporary
observer installed by LogBeginner.__init__, or a numbered external
observer. -/
inductive GObs : Type where
  | temp
  | ext (n : Nat)
  deriving DecidableEq, Repr

/-- The observable state of the beginner's pipeline: the publisher's
observer registry, the temporary buffer's contents, the lines written to
the fallback error stream, the (observer, event) deliveries made to
external observers in order, whether the beginner still holds its
temporary observer, and the recorded previous begin point. -/
structure LogState : Type where
  observers : List GObs
  buffer : List GEvent
  stream : List String
  delivered : List (Nat × GEvent)
  tempPresent : Bool
  previousBegin : Option Nat
  deriving DecidableEq, Repr

/-- One delivery pass of the beginner's publisher.  The temporary observer
is itself a LogPublisher over the buffer and the critical sink; an
exception raised by the critical sink is caught by that nested publisher
and reported through its error logger — a fresh publisher over its
remaining observer, the buffer — appending one failure event to the
buffer.  External observers record the delivery and never raise.
deliverStep is the per-observer body of the publisher's delivery loop;
publishOne folds it over the registry. -/
def deliverStep (e : GEvent) (st : LogState) (o : GObs) : LogState :=
  match o with
  | .temp =>
    let st1 := { st with buffer := bufferPush st.buffer e }
    match criticalSinkCall e with
    | .ok none => st1
    | .ok (some line) => { st1 with stream := st1.stream ++ [line] }
    | .error _ => { st1 with buffer := bufferPush st1.buffer failureEvent }
  | .ext n => { st with delivered := st.delivered ++ [(n, e)] }

def publishOne (s : LogState) (e : GEvent) : LogState :=
  s.observers.foldl (deliverStep e) s

/-- addObserver for each given observer in order (no-op when already
present). -/
def addObservers (l : List GObs) (ns : List Nat) : List GObs :=
  ns.foldl (fun acc n => if acc.contains (GObs.ext n) then acc else acc ++ [GObs.ext n]) l

/-- LogBeginner.beginLoggingTo (_global.py lines 80-114): add the given
observers; if the temporary observer is still installed, remove it and
replay the buffer to the publisher; otherwise emit one
MORE_THAN_ONCE_WARNING event through the publisher; finally record the
begin point. -/
def beginLoggingTo (s : LogState) (newObs : List Nat) (line : Nat) : LogState :=
  let s1 := { s with observers := addObservers s.observers newObs }
  if s1.tempPresent then
    let s2 := { s1 with observers := s1.observers.filter (fun o => o ≠ .temp),
                        tempPresent := false }
    let s3 := s2.buffer.foldl publishOne s2
    { s3 with previousBegin := some line }
  else
    let s2 := publishOne s1 warningEvent
    { s2 with previousBegin := some line }

/-- The state right after LogBeginner.__init__: the publisher holds only
the temporary observer and nothing has been buffered, written or
delivered. -/
def initState : LogState :=
  { observers := [.temp], buffer := [], stream := [], delivered := [],
    tempPresent := true, previousBegin := none }

/-- The events delivered to external observer n, in order. -/
def deliveredTo (n : Nat) (l : List (Nat × GEvent)) : List GEvent :=
  l.filterMap (fun p => if p.1 = n then some p.2 else none)

/-- The deliveries one publisher pass makes to a temp-free observer list. -/
def deliveriesFor (obsL : List GObs) (e : GEvent) : List (Nat × GEvent) :=
  obsL.filterMap
    (fun o =>
      match o with
      | .temp => none
      | .ext n => some (n, e))

/-! ## JSON persistence (_json.py, _saveload.py) -/

/-- JSON values. -/
inductive JVal : Type where
  | str (s : String)
  | num (n : Int)
  | bool (b : Bool)
  | null
  | obj (l : List (String × JVal))
  deriving Repr

/-- The class uuid under which LogLevel constants are persisted
(_json.py line 53). -/
def levelClassUUID : String := "02E59486-F24D-46AD-8224-3ACDF2A5732A"

/-- The class uuid under which Failure instances are persisted
(_json.py line 58). -/
def failureClassUUID : String := "E76887E2-20ED-49BF-A8F8-BA25CC586F2D"

/-- objectSaveHook (_json.py lines 75-81): walk classInfo; a LogLevel
constant is saved as its name plus the level class uuid; anything not
matched by classInfo becomes the unpersistable placeholder.  (The Failure
saver is unreachable here because the value universe carries no Failure.) -/
def objectSaveHook (v : PyVal) : JVal :=
  match v with
  | .level l => .obj [("name", .str l.name), ("__class_uuid__", .str levelClassUUID)]
  | _ => .obj [("unpersistable", .bool true)]

/-- One JSON-encoded value: natively serializable values pass through and
everything else goes to the encoder's default hook, as json.dumps does. -/
def encodeVal (hook : PyVal → JVal) (v : PyVal) : JVal :=
  match v with
  | .str s => .str s
  | .int n => .num n
  | .pyNone => .null
  | v => hook v

/-- json.dumps of a (flattened) event under a given default hook. -/
def dumpsEvent (hook : PyVal → JVal) (ev : FEvent) : JVal :=
  .obj
    ((match ev.logFormat with
      | none => []
      | some _ => [("log_format", JVal.str "<format>")])
    ++ (match ev.logFlattened with
        | none => []
        | some fl =>
            [("log_flattened", JVal.obj (fl.map (fun kv => (kv.1, encodeVal hook kv.2))))])
    ++ ev.fields.map (fun kv => (kv.1, encodeVal hook kv.2)))

/-- eventAsJSON (_json.py lines 85-113): flatten the given event in place
— a raised exception from flattenEvent propagates — then dump it with
objectSaveHook as the default.  The returned pair carries the JSON output
together with the mutated event, making the in-place flattening
observable. -/
def eventAsJSONE (ev : FEvent) : Except String (JVal × FEvent) :=
  match flattenEventE ev with
  | .error e => .error e
  | .ok (evf, _) => .ok (dumpsEvent objectSaveHook evf, evf)

/-- saveEventJSON (_saveload.py lines 15-45): like eventAsJSON but its
default hook maps every unencodable value straight to the unpersistable
placeholder. -/
def saveEventJSONE (ev : FEvent) : Except String (JVal × FEvent) :=
  match flattenEventE ev with
  | .error e => .error e
  | .ok (evf, _) =>
      .ok (dumpsEvent (fun _ => JVal.obj [("unpersistable", JVal.bool true)]) evf, evf)

/-- Values produced by decoding: JSON scalars, reconstructed system types,
and dicts passed through the load hook unconverted. -/
inductive LVal : Type where
  | str (s : String)
  | num (n : Int)
  | bool (b : Bool)
  | null
  | level (l : LogLevel)
  | failureObj
  | rawDict (l : List (String × JVal))
  deriving Repr

/-- objectLoadHook (_json.py lines 68-71): a dict carrying __class_uuid__
is dispatched through uuidToLoader — the level loader resolves the
persisted name via getattr(LogLevel, name, None), the failure loader
rebuilds a Failure — and an unrecognized uuid raises KeyError out of the
uuidToLoader lookup; a dict without the marker is returned unchanged. -/
def objectLoadHook (d : List (String × JVal)) : Except String LVal :=
  match lookupVal d "__class_uuid__" with
  | some (JVal.str u) =>
    if u = levelClassUUID then
      match lookupVal d "name" with
      | some (JVal.str n) =>
          .ok (match LogLevel.fromName? n with
               | some l => .level l
               | none => .null)
      | _ => .error "KeyError: name"
    else if u = failureClassUUID then .ok .failureObj
    else .error ("KeyError: " ++ u)
  | some _ => .error "ValueError: badly formed hexadecimal UUID string"
  | none => .ok (.rawDict d)

/-! ## Concrete inputs used by counterexamples and witnesses -/

/-- An environment where observer 1 raises and everyone else returns. -/
def envRaise1 : Nat → Effect := fun i => if i = 1 then .raise else .ok

/-- An environment where observer 1 removes itself from the publisher
during its own invocation. -/
def envSelfRemove : Nat → Effect := fun i => if i = 1 then .remove 1 else .ok

/-- An environment where observer 1 adds observer 3 to the publisher
during its own invocation. -/
def envAddDuring : Nat → Effect := fun i => if i = 1 then .add 3 else .ok

/-- The template "\x7bx:3\x7d" (a field with a bare-width format spec)
over x = "a". -/
def c1SpecEvent : FEvent :=
  { logFormat := some (.text [("", some ⟨"x", "3", none⟩)]),
    logFlattened := none,
    fields := [("x", PyVal.str "a")] }

/-- c1SpecEvent flattened: the width spec is part of the cache key but the
cached value is the bare resolved value. -/
def c1SpecFlattened : FEvent :=
  { c1SpecEvent with logFlattened := some [("x!:3", PyVal.str "a")] }

/-- The template "\x7bx\x7d done" (trailing literal text after the last
field) over x = "a". -/
def c1TrailingEvent : FEvent :=
  { logFormat := some (.text [("", some ⟨"x", "", none⟩), (" done", none)]),
    logFlattened := none,
    fields := [("x", PyVal.str "a")] }

/-- The template "\x7bx!a\x7d" (a conversion outside s and r) over
x = "v". -/
def c1ConvEvent : FEvent :=
  { logFormat := some (.text [("", some ⟨"x", "", some 'a'⟩)]),
    logFlattened := none,
    fields := [("x", PyVal.str "v")] }

/-- c1ConvEvent flattened: the unknown conversion is silently treated as
the identity by flattenEvent. -/
def c1ConvFlattened : FEvent :=
  { c1ConvEvent with logFlattened := some [("x!a:", PyVal.str "v")] }

/-- A template exercising a plain field and a call-marked repr field:
"\x7bx\x7d - \x7by()!r\x7d". -/
def c1WitnessEvent : FEvent :=
  { logFormat := some (.text
      [("", some ⟨"x", "", none⟩), (" - ", some ⟨"y()", "", some 'r'⟩)]),
    logFlattened := none,
    fields := [("x", PyVal.str "a"), ("y", PyVal.thunk (PyVal.int 5))] }

/-- The template "\x7bx()\x7d \x7bx()\x7d": one call-marked triple
referenced twice. -/
def c8OnceTemplate : Template :=
  [("", some ⟨"x()", "", none⟩), (" ", some ⟨"x()", "", none⟩)]

/-- An event carrying c8OnceTemplate over a thunk x. -/
def c8OnceEvent : FEvent :=
  { logFormat := some (.text c8OnceTemplate),
    logFlattened := none,
    fields := [("x", PyVal.thunk (PyVal.str "v"))] }

/-- c8OnceEvent flattened: one cache entry, one invocation. -/
def c8OnceFlattened : FEvent :=
  { c8OnceEvent with logFlattened := some [("x()!:", PyVal.str "v")] }

/-- The template "\x7bx()!s\x7d \x7bx()!r\x7d": the same call-marked
field under two conversions. -/
def c8TwiceTemplate : Template :=
  [("", some ⟨"x()", "", some 's'⟩), (" ", some ⟨"x()", "", some 'r'⟩)]

/-- An event carrying c8TwiceTemplate over a thunk x. -/
def c8TwiceEvent : FEvent :=
  { logFormat := some (.text c8TwiceTemplate),
    logFlattened := none,
    fields := [("x", PyVal.thunk (PyVal.str "v"))] }

/-- c8TwiceEvent flattened: two cache entries, two invocations. -/
def c8TwiceFlattened : FEvent :=
  { c8TwiceEvent with
    logFlattened := some [("x()!s:", PyVal.str "v"), ("x()!r:", PyVal.str "'v'")] }

/-- A one-field event used to exhibit the in-place flattening of the
JSON encoders. -/
def c10Event : FEvent :=
  { logFormat := some (.text [("", some ⟨"x", "", none⟩)]),
    logFlattened := none,
    fields := [("x", PyVal.str "a")] }

/-- c10Event as the JSON encoders hand it back: flattened in place. -/
def c10Flattened : FEvent :=
  { c10Event with logFlattened := some [("x!:", PyVal.str "a")] }

/-- An info-level event published before logging begins; it is buffered
and not echoed to the error stream. -/
def c3Event : GEvent :=
  { level := some .info, ns := some "test", time := some 1,
    fmt := some "hello", sys := none }

/-- A critical event with a namespace, a message and a log_time, as
Logger.critical would emit it. -/
def c7FailingEvent : GEvent :=
  { level := some .critical, ns := some "test", time := some 1,
    fmt := some "a critical message", sys := none }

/-! ## Supporting lemmas -/

theorem lookupVal_append {α : Type} (l1 l2 : List (String × α)) (k : String) :
    lookupVal (l1 ++ l2) k =
      match lookupVal l1 k with
      | some v => some v
      | none => lookupVal l2 k := by
  induction l1 with
  | nil => simp [lookupVal]
  | cons p rest ih =>
    obtain ⟨a, b⟩ := p
    simp only [List.cons_append, lookupVal]
    split <;> simp [ih]

theorem lookupVal_mem {α : Type} {l : List (String × α)} {k : String} {v : α}
    (h : lookupVal l k = some v) : (k, v) ∈ l := by
  induction l with
  | nil => simp [lookupVal] at h
  | cons p rest ih =>
    obtain ⟨a, b⟩ := p
    simp only [lookupVal] at h
    split at h
    · rename_i heq
      injection h with h
      subst heq h
      exact List.mem_cons_self _ _
    · exact List.mem_cons_of_mem _ (ih h)

theorem lookupVal_isSome_iff {α : Type} (l : List (String × α)) (k : String) :
    (lookupVal l k).isSome = true ↔ k ∈ l.map Prod.fst := by
  induction l with
  | nil => simp [lookupVal]
  | cons p rest ih =>
    obtain ⟨a, b⟩ := p
    simp only [lookupVal, List.map_cons, List.mem_cons]
    split
    · rename_i heq
      simp [heq]
    · rename_i hne
      rw [ih]
      constructor
      · intro h
        exact Or.inr h
      · rintro (h | h)
        · exact absurd h.symm hne
        · exact h

theorem stripCall_append_parens (n : String) : stripCall (n ++ "()") = some n := by
  unfold stripCall
  rw [String.data_append]
  have h2 : ("()" : String).data = ['(', ')'] := rfl
  rw [h2, List.reverse_append]
  simp

theorem stripCall_eq_some {s n : String} (h : stripCall s = some n) : s = n ++ "()" := by
  unfold stripCall at h
  split at h
  · rename_i rest heq
    injection h with h
    apply String.ext
    rw [String.data_append]
    have h2 : ("()" : String).data = ['(', ')'] := rfl
    rw [h2, ← h]
    have h3 : s.data = (')' :: '(' :: rest).reverse := by
      rw [← heq, List.reverse_reverse]
    rw [h3]
    simp
  · exact absurd h (by simp)

theorem runPass_no_mutation (env : Nat → Effect) :
    ∀ (fuel : Nat) (st : PassState),
      (∀ i ∈ st.obsList, env i = .ok ∨ env i = .raise) →
      fuel + st.idx = st.obsList.length →
      runPass fuel env st =
        { obsList := st.obsList, idx := st.obsList.length,
          invoked := st.invoked ++ st.obsList.drop st.idx,
          broken := st.broken
            ++ (st.obsList.drop st.idx).filter (fun i => decide (env i = .raise)) } := by
  intro fuel
  induction fuel with
  | zero =>
    intro st h hl
    obtain ⟨L, i, inv, br⟩ := st
    simp only at hl
    have hi : i = L.length := by omega
    subst hi
    simp [runPass, List.drop_length]
  | succ fuel ih =>
    intro st h hl
    have hidx : st.idx < st.obsList.length := by omega
    have hdrop : st.obsList.get ⟨st.idx, hidx⟩ :: st.obsList.drop (st.idx + 1)
        = st.obsList.drop st.idx := List.get_cons_drop _ _
    have hmem : st.obsList.get ⟨st.idx, hidx⟩ ∈ st.obsList := st.obsList.get_mem _ _
    unfold runPass
    rw [dif_pos hidx]
    dsimp only
    rcases h _ hmem with hok | hraise
    · have hok2 : env (getElem st.obsList st.idx hidx) = Effect.ok := hok
      rw [hok]
      have hrec := ih
        ⟨st.obsList, st.idx + 1, st.invoked ++ [st.obsList.get ⟨st.idx, hidx⟩], st.broken⟩
        (by simpa using h) (by dsimp only; omega)
      rw [hrec]
      rw [← hdrop]
      simp [-List.getElem_cons_drop, List.get_eq_getElem, hok2, List.filter_cons,
        List.append_assoc]
    · have hraise2 : env (getElem st.obsList st.idx hidx) = Effect.raise := hraise
      rw [hraise]
      have hrec := ih
        ⟨st.obsList, st.idx + 1, st.invoked ++ [st.obsList.get ⟨st.idx, hidx⟩],
          st.broken ++ [st.obsList.get ⟨st.idx, hidx⟩]⟩
        (by simpa using h) (by dsimp only; omega)
      rw [hrec]
      rw [← hdrop]
      simp [-List.getElem_cons_drop, List.get_eq_getElem, hraise2, List.filter_cons,
        List.append_assoc]

/-! ## Claim theorems -/

/-- C5: for every event, formatEvent returns text and never propagates an
exception; when the formatting body fails the result carries the
"Unable to format" or "MESSAGE LOST" marker; an event with neither
flattened data nor a log_format yields the empty string. -/
theorem c5_formatEvent_total_and_degraded (ev : FEvent) :
    (formatEventE ev).isOk = true
    ∧ (ev.logFlattened = none → ev.logFormat = none → formatEventE ev = .ok "")
    ∧ (∀ e, formatEventBody ev = .error e →
        (∃ r, formatEventE ev = .ok ("Unable to format event " ++ r))
        ∨ (∃ r, formatEventE ev = .ok ("MESSAGE LOST: unformattable object logged: " ++ r))) := by
  refine ⟨?_, ?_, ?_⟩
  · cases h : formatEventBody ev with
    | ok s =>
      simp only [formatEventE, h]
      rfl
    | error e =>
      simp only [formatEventE, h]
      cases h2 : reprEvent ev with
      | ok r =>
        simp only [formatUnformattableEvent, h2]
        rfl
      | error e2 =>
        simp only [formatUnformattableEvent, h2]
        rfl
  · intro h1 h2
    simp [formatEventE, formatEventBody, h1, h2]
  · intro e he
    simp only [formatEventE, he]
    cases h2 : reprEvent ev with
    | ok r =>
      left
      refine ⟨r ++ (": " ++ e), ?_⟩
      simp [formatUnformattableEvent, h2, String.append_assoc]
    | error e2 =>
      right
      refine ⟨e ++ ("\nRecoverable data: " ++ (recoverableData ev
        ++ ("\nException during formatting:\n" ++ failureText))), ?_⟩
      simp [formatUnformattableEvent, h2, String.append_assoc]

/-- C5 witness: a flattened-free, format-free event formats to the empty
string, and an event with a non-text log_format degrades with a marker. -/
theorem c5_witness :
    (formatEventE { logFormat := none, logFlattened := none, fields := [] } = .ok "")
    ∧ ((∃ r, formatEventE { logFormat := some .nonText, logFlattened := none, fields := [] }
          = .ok ("Unable to format event " ++ r))
      ∨ (∃ r, formatEventE { logFormat := some .nonText, logFlattened := none, fields := [] }
          = .ok ("MESSAGE LOST: unformattable object logged: " ++ r))) :=
  ⟨(c5_formatEvent_total_and_degraded _).2.1 rfl rfl,
   (c5_formatEvent_total_and_degraded _).2.2 _ rfl⟩

/-- C6: predicates are evaluated in order; the first yes forwards and the
first no drops, both without consulting later predicates; maybe passes to
the next predicate; a chain of only maybes forwards; a predicate result
outside the three constants raises TypeError. -/
theorem c6_predicate_chain {α : Type} (e : α) (p : α → PredResult)
    (preds rest : List (α → PredResult)) :
    (p e = .yes → filteringObserverCall (p :: rest) e = .ok [e])
    ∧ (p e = .no → filteringObserverCall (p :: rest) e = .ok [])
    ∧ (p e = .maybe → shouldLogEvent (p :: rest) e = shouldLogEvent rest e)
    ∧ ((∀ q ∈ preds, q e = .maybe) → shouldLogEvent preds e = .ok true
        ∧ filteringObserverCall preds e = .ok [e])
    ∧ (p e = .invalid →
        shouldLogEvent (p :: rest) e = .error "TypeError: Invalid predicate result") := by
  refine ⟨?_, ?_, ?_, ?_, ?_⟩
  · intro h
    simp [filteringObserverCall, shouldLogEvent, h]
  · intro h
    simp [filteringObserverCall, shouldLogEvent, h]
  · intro h
    simp [shouldLogEvent, h]
  · intro h
    have hall : shouldLogEvent preds e = .ok true := by
      induction preds with
      | nil => rfl
      | cons q qs ih =>
        have hq : q e = .maybe := h q (List.mem_cons_self _ _)
        simp only [shouldLogEvent, hq]
        exact ih (fun r hr => h r (List.mem_cons_of_mem _ hr))
    exact ⟨hall, by simp [filteringObserverCall, hall]⟩
  · intro h
    simp [shouldLogEvent, h]

/-- C6 witness: a maybe then yes chain forwards; a lone no drops; a lone
invalid result raises; an all-maybe chain forwards. -/
theorem c6_witness :
    (filteringObserverCall [fun _ : Nat => PredResult.maybe, fun _ => PredResult.yes] 0
        = .ok [0])
    ∧ (filteringObserverCall [fun _ : Nat => PredResult.no] 0 = .ok [])
    ∧ (shouldLogEvent [fun _ : Nat => PredResult.invalid] 0
        = .error "TypeError: Invalid predicate result")
    ∧ (shouldLogEvent [fun _ : Nat => PredResult.maybe, fun _ => PredResult.maybe] 0
        = .ok true) := by
  refine ⟨?_, ?_, ?_, ?_⟩
  · have h := (c6_predicate_chain 0 (fun _ : Nat => PredResult.maybe)
      [] [fun _ => PredResult.yes]).2.2.1 rfl
    have h2 := (c6_predicate_chain 0 (fun _ : Nat => PredResult.yes) [] []).1 rfl
    simp only [filteringObserverCall] at h2 ⊢
    rw [h]
    simpa using h2
  · exact (c6_predicate_chain 0 (fun _ : Nat => PredResult.no) [] []).2.1 rfl
  · exact (c6_predicate_chain 0 (fun _ : Nat => PredResult.invalid) [] []).2.2.2.2 rfl
  · exact ((c6_predicate_chain 0 (fun _ : Nat => PredResult.maybe)
      [fun _ : Nat => PredResult.maybe, fun _ => PredResult.maybe] []).2.2.2.1
      (by
        intro q hq
        simp only [List.mem_cons, List.not_mem_nil, or_false] at hq
        rcases hq with h | h <;> (subst h; rfl))).1

/-- C9 counterexample: decoding a persisted dict whose class uuid is not
recognized raises KeyError out of the uuidToLoader lookup instead of
yielding an unknown-marker. -/
theorem c9_counterexample :
    objectLoadHook [("__class_uuid__", JVal.str "00000000-0000-0000-0000-000000000000")]
      = .error "KeyError: 00000000-0000-0000-0000-000000000000" := rfl

/-- C9 amended: encoding degrades — values outside classInfo are saved as
the unpersistable placeholder, and a persisted level whose name is not a
recognized level decodes to None — but a persisted dict with an
unrecognized class uuid makes decoding raise KeyError rather than yield an
unknown-marker. -/
theorem c9_amended_serialization_degrades :
    (∀ v : PyVal, (∀ l, v ≠ .level l) →
        objectSaveHook v = .obj [("unpersistable", .bool true)])
    ∧ (∀ n, LogLevel.fromName? n = none →
        objectLoadHook [("name", JVal.str n), ("__class_uuid__", JVal.str levelClassUUID)]
          = .ok .null)
    ∧ (∀ l : LogLevel,
        objectLoadHook
            [("name", JVal.str l.name), ("__class_uuid__", JVal.str levelClassUUID)]
          = .ok (.level l))
    ∧ (∀ u, u ≠ levelClassUUID → u ≠ failureClassUUID →
        objectLoadHook [("__class_uuid__", JVal.str u)] = .error ("KeyError: " ++ u)) := by
  refine ⟨?_, ?_, ?_, ?_⟩
  · intro v h
    cases v with
    | level l => exact absurd rfl (h l)
    | _ => rfl
  · intro n h
    simp [objectLoadHook, lookupVal, h]
  · intro l
    cases l <;> rfl
  · intro u h1 h2
    simp [objectLoadHook, lookupVal, h1, h2]

/-- C9 amended witness: a generic object encodes to the placeholder, the
unknown level name "other" decodes to None, the known name "warn" decodes
to the warn constant, and a fresh uuid raises KeyError. -/
theorem c9_amended_witness :
    (objectSaveHook (.obj "O") = .obj [("unpersistable", .bool true)])
    ∧ (objectLoadHook [("name", JVal.str "other"), ("__class_uuid__", JVal.str levelClassUUID)]
        = .ok .null)
    ∧ (objectLoadHook [("name", JVal.str "warn"), ("__class_uuid__", JVal.str levelClassUUID)]
        = .ok (.level .warn))
    ∧ (objectLoadHook [("__class_uuid__", JVal.str "ABC")] = .error "KeyError: ABC") :=
  ⟨c9_amended_serialization_degrades.1 (.obj "O") (fun l h => by cases h),
   c9_amended_serialization_degrades.2.1 "other" rfl,
   c9_amended_serialization_degrades.2.2.1 .warn,
   c9_amended_serialization_degrades.2.2.2 "ABC" (by decide) (by decide)⟩

/-- C10: encoding is not side-effect-free — eventAsJSON and saveEventJSON
flatten the very event passed in, so the returned event carries a
log_flattened key (with its other keys intact) and subsequent formatEvent
calls on it take the flat-format path; and because flattenEvent reads
log_format unguarded, encoding an event without log_format raises KeyError
instead of producing output. -/
theorem c10_encoding_mutates_event :
    (∀ ev evf j, eventAsJSONE ev = .ok (j, evf) →
        evf.logFlattened.isSome = true ∧ evf.logFormat = ev.logFormat
          ∧ evf.fields = ev.fields)
    ∧ (∀ ev evf j, saveEventJSONE ev = .ok (j, evf) → evf.logFlattened.isSome = true)
    ∧ (∀ ev fl, ev.logFlattened = some fl → formatEventBody ev = flatFormatE ev)
    ∧ (∀ ev : FEvent, ev.logFormat = none →
        eventAsJSONE ev = .error "KeyError: log_format"
        ∧ saveEventJSONE ev = .error "KeyError: log_format") := by
  have hshape : ∀ ev evf calls, flattenEventE ev = .ok (evf, calls) →
      evf.logFlattened.isSome = true ∧ evf.logFormat = ev.logFormat
        ∧ evf.fields = ev.fields := by
    intro ev evf calls h
    unfold flattenEventE at h
    split at h
    · cases h
    · cases h
    · rename_i t heq
      split at h
      · cases h
      · injection h with h
        injection h with h1 h2
        subst h1
        simp [heq]
    · rename_i t heq
      split at h
      · cases h
      · injection h with h
        injection h with h1 h2
        subst h1
        simp [heq]
  refine ⟨?_, ?_, ?_, ?_⟩
  · intro ev evf j h
    unfold eventAsJSONE at h
    cases hf : flattenEventE ev with
    | error e => rw [hf] at h; cases h
    | ok p =>
      rw [hf] at h
      injection h with h
      injection h with h1 h2
      subst h2
      exact hshape ev p.1 p.2 (by rw [hf])
  · intro ev evf j h
    unfold saveEventJSONE at h
    cases hf : flattenEventE ev with
    | error e => rw [hf] at h; cases h
    | ok p =>
      rw [hf] at h
      injection h with h
      injection h with h1 h2
      subst h2
      exact (hshape ev p.1 p.2 (by rw [hf])).1
  · intro ev fl h
    simp [formatEventBody, h]
  · intro ev h
    constructor <;> simp [eventAsJSONE, saveEventJSONE, flattenEventE, h]

/-- C10 witness: encoding a one-field event returns it flattened and
formatEvent on the result takes the flat path; encoding an event with no
log_format raises KeyError. -/
theorem c10_witness :
    (c10Flattened.logFlattened.isSome = true)
    ∧ (formatEventBody c10Flattened = flatFormatE c10Flattened)
    ∧ (eventAsJSONE { c10Event with logFormat := none } = .error "KeyError: log_format") :=
  ⟨(c10_encoding_mutates_event.1 c10Event c10Flattened
      (dumpsEvent objectSaveHook c10Flattened) rfl).1,
   c10_encoding_mutates_event.2.2.1 c10Flattened [("x!:", PyVal.str "a")] rfl,
   (c10_encoding_mutates_event.2.2.2 { c10Event with logFormat := none } rfl).1⟩

/-- C7: the code at the failing input — a critical event carrying a
namespace, a message and a log_time, as Logger.critical emits it — writes
nothing to the fallback error stream, because FileLogObserver.formatTime
applies strftime to the formatter function that _global.py passed as the
timeFormat and raises, and the temporary publisher swallows the failure;
the same event without a log_time is written, showing the log_time
interaction is what breaks the documented behavior. -/
theorem c7_critical_echo_broken_by_time :
    (publishOne initState c7FailingEvent).stream = []
    ∧ (criticalSinkCall c7FailingEvent).isOk = false
    ∧ (publishOne initState { c7FailingEvent with time := none }).stream
        = ["- [test#<LogLevel=critical>] a critical message\n"] :=
  ⟨rfl, rfl, rfl⟩

/-- C4 counterexample: with observers 1 and 2 where observer 1 removes
itself from the publisher during its own invocation, the delivery pass
invokes only observer 1 — the in-flight pass is affected, so __call__ does
not iterate a snapshot. -/
theorem c4_counterexample :
    (publisherCall 2 envSelfRemove [1, 2]).1 = [1]
    ∧ (publisherCall 2 envSelfRemove [1, 2]).1 ≠ [1, 2] := by
  refine ⟨rfl, ?_⟩
  intro h
  rw [show (publisherCall 2 envSelfRemove [1, 2]).1 = [1] from rfl] at h
  cases h

/-- C4 amended: LogPublisher.__call__ iterates the live observer list
rather than a snapshot: when no observer mutates the publisher during the
pass, the original set and order are invoked and no error is raised, but
an observer that removes itself causes the observer after it to be
skipped, and an observer added during the pass is invoked in that same
pass. -/
theorem c4_amended_live_list_iteration :
    (∀ (obs : List Nat) (env : Nat → Effect),
        (∀ i ∈ obs, env i = .ok ∨ env i = .raise) →
        (publisherCall obs.length env obs).1 = obs)
    ∧ (publisherCall 2 envSelfRemove [1, 2]).1 = [1]
    ∧ (publisherCall 3 envAddDuring [1, 2]).1 = [1, 2, 3] := by
  refine ⟨?_, rfl, rfl⟩
  intro obs env h
  unfold publisherCall
  rw [runPass_no_mutation env obs.length ⟨obs, 0, [], []⟩ (by simpa using h) (by simp)]
  simp

/-- C4 amended witness: with pure observers 5 and 7 the pass invokes
exactly 5 then 7. -/
theorem c4_amended_witness :
    (publisherCall 2 (fun _ => Effect.ok) [5, 7]).1 = [5, 7] :=
  c4_amended_live_list_iteration.1 [5, 7] (fun _ => Effect.ok) (by intro i _; exact Or.inl rfl)

/-- C2: in a delivery pass where some observers raise and the rest return
normally, every observer (raising ones included) is invoked exactly in
registration order, the pass itself never propagates an exception, and
afterwards exactly one error report per raising observer is emitted, in
order, each through a fresh publisher holding the same observer list minus
that observer. -/
theorem c2_broken_observer_isolation (obs : List Nat) (env : Nat → Effect)
    (h : ∀ i ∈ obs, env i = .ok ∨ env i = .raise) :
    publisherCall obs.length env obs =
      (obs,
       (obs.filter (fun i => decide (env i = .raise))).map
         (fun i => (i, obs.filter (fun o => decide (o ≠ i))))) := by
  unfold publisherCall
  rw [runPass_no_mutation env obs.length ⟨obs, 0, [], []⟩ (by simpa using h) (by simp)]
  simp

/-- C2 witness: observers 1 (raising), 2 and 3 all receive the event in
order; one error report is generated for observer 1, through a publisher
over observers 2 and 3. -/
theorem c2_witness :
    publisherCall 3 envRaise1 [1, 2, 3] = ([1, 2, 3], [(1, [2, 3])]) := by
  have h := c2_broken_observer_isolation [1, 2, 3] envRaise1
    (by intro i _; by_cases hi : i = 1 <;> simp [envRaise1, hi])
  rw [show ([1, 2, 3] : List Nat).length = 3 from rfl] at h
  rw [h]
  rfl

/-! ## Flattening lemmas (round-trip and call-count reasoning) -/

theorem fieldsOf_cons_some {p : String × Option FieldRef} {t : Template} {f : FieldRef}
    (h : p.2 = some f) : fieldsOf (p :: t) = f :: fieldsOf t := by
  simp [fieldsOf, List.filterMap_cons, h]

theorem fieldsOf_cons_sub {p : String × Option FieldRef} {t : Template} {f : FieldRef}
    (h : f ∈ fieldsOf t) : f ∈ fieldsOf (p :: t) := by
  cases hp : p.2 with
  | none =>
    show f ∈ List.filterMap (fun p => p.2) (p :: t)
    rw [List.filterMap_cons, hp]
    exact h
  | some g =>
    rw [fieldsOf_cons_some hp]
    exact List.mem_cons_of_mem _ h

theorem lookupVal_extend {α : Type} {l1 : List (String × α)} {k : String} {v : α}
    (l2 : List (String × α)) (h : lookupVal l1 k = some v) :
    lookupVal (l1 ++ l2) k = some v := by
  rw [lookupVal_append, h]

theorem flattenLoop_grows (ev : FEvent) :
    ∀ (t : Template) (fields : List (String × PyVal)) (calls : List String)
      (F : List (String × PyVal)) (C : List String),
      flattenLoop ev t fields calls = .ok (F, C) →
      ∃ new, F = fields ++ new := by
  intro t
  induction t with
  | nil =>
    intro fields calls F C h
    injection h with h
    injection h with h1 h2
    exact ⟨[], by simp [h1]⟩
  | cons p rest ih =>
    intro fields calls F C h
    rw [flattenLoop] at h
    by_cases hc : (lookupVal fields (tupleKey p.2)).isSome = true
    · rw [if_pos hc] at h
      exact ih fields calls F C h
    · rw [if_neg hc] at h
      cases hp : p.2 with
      | none =>
        rw [hp] at h
        dsimp only at h
        cases h
      | some f =>
        rw [hp] at h
        dsimp only at h
        cases hr : flatResolve ev f with
        | error e =>
          rw [hr] at h
          dsimp only at h
          cases h
        | ok v2 =>
          rw [hr] at h
          dsimp only at h
          obtain ⟨new, hnew⟩ := ih _ _ F C h
          exact ⟨(tupleKey (some f), v2) :: new, by simp [hnew]⟩

theorem flattenLoop_entries (ev : FEvent) :
    ∀ (t : Template) (fields : List (String × PyVal)) (calls : List String)
      (F : List (String × PyVal)) (C : List String),
      flattenLoop ev t fields calls = .ok (F, C) →
      ∀ kv, kv ∈ F → kv ∈ fields
        ∨ ∃ f, f ∈ fieldsOf t ∧ tupleKey (some f) = kv.1 ∧ flatResolve ev f = .ok kv.2 := by
  intro t
  induction t with
  | nil =>
    intro fields calls F C h kv hkv
    injection h with h
    injection h with h1 h2
    subst h1
    exact Or.inl hkv
  | cons p rest ih =>
    intro fields calls F C h kv hkv
    rw [flattenLoop] at h
    by_cases hc : (lookupVal fields (tupleKey p.2)).isSome = true
    · rw [if_pos hc] at h
      rcases ih fields calls F C h kv hkv with hin | ⟨f, hf, hkey, hres⟩
      · exact Or.inl hin
      · exact Or.inr ⟨f, fieldsOf_cons_sub hf, hkey, hres⟩
    · rw [if_neg hc] at h
      cases hp : p.2 with
      | none =>
        rw [hp] at h
        dsimp only at h
        cases h
      | some f =>
        rw [hp] at h
        dsimp only at h
        cases hr : flatResolve ev f with
        | error e =>
          rw [hr] at h
          dsimp only at h
          cases h
        | ok v2 =>
          rw [hr] at h
          dsimp only at h
          rcases ih _ _ F C h kv hkv with hin | ⟨g, hg, hkey, hres⟩
          · rcases List.mem_append.mp hin with hin | hin
            · exact Or.inl hin
            · simp only [List.mem_singleton] at hin
              subst hin
              refine Or.inr ⟨f, ?_, ?_, ?_⟩
              · rw [fieldsOf_cons_some hp]
                exact List.mem_cons_self _ _
              · rfl
              · exact hr
          · exact Or.inr ⟨g, fieldsOf_cons_sub hg, hkey, hres⟩

theorem flattenLoop_covers (ev : FEvent) :
    ∀ (t : Template) (fields : List (String × PyVal)) (calls : List String)
      (F : List (String × PyVal)) (C : List String),
      flattenLoop ev t fields calls = .ok (F, C) →
      ∀ f, f ∈ fieldsOf t → (lookupVal F (tupleKey (some f))).isSome = true := by
  intro t
  induction t with
  | nil =>
    intro fields calls F C h f hf
    simp [fieldsOf] at hf
  | cons p rest ih =>
    intro fields calls F C h f hf
    rw [flattenLoop] at h
    by_cases hc : (lookupVal fields (tupleKey p.2)).isSome = true
    · rw [if_pos hc] at h
      cases hp : p.2 with
      | none =>
        have hf2 : f ∈ fieldsOf rest := by
          have := hf
          rw [fieldsOf, List.filterMap_cons, hp] at this
          exact this
        exact ih fields calls F C h f hf2
      | some g =>
        rw [fieldsOf_cons_some hp] at hf
        rcases List.mem_cons.mp hf with hfg | hf2
        · subst hfg
          obtain ⟨new, hnew⟩ := flattenLoop_grows ev rest fields calls F C h
          rw [hp] at hc
          obtain ⟨v, hv⟩ := Option.isSome_iff_exists.mp hc
          rw [hnew, lookupVal_extend new hv]
          rfl
        · exact ih fields calls F C h f hf2
    · rw [if_neg hc] at h
      cases hp : p.2 with
      | none =>
        rw [hp] at h
        dsimp only at h
        cases h
      | some g =>
        rw [hp] at h
        dsimp only at h
        cases hr : flatResolve ev g with
        | error e =>
          rw [hr] at h
          dsimp only at h
          cases h
        | ok v2 =>
          rw [hr] at h
          dsimp only at h
          rw [fieldsOf_cons_some hp] at hf
          rcases List.mem_cons.mp hf with hfg | hf2
          · subst hfg
            obtain ⟨new, hnew⟩ := flattenLoop_grows ev rest _ _ F C h
            have hv : lookupVal (fields ++ [(tupleKey (some f), v2)]) (tupleKey (some f))
                = some v2 := by
              rw [lookupVal_append]
              rw [hp] at hc
              cases hl : lookupVal fields (tupleKey (some f)) with
              | some w => rw [hl] at hc; exact absurd rfl hc
              | none => simp [lookupVal]
            rw [hnew, lookupVal_extend new hv]
            rfl
          · exact ih _ _ F C h f hf2

theorem flatten_resolved (ev : FEvent) (t : Template)
    (F : List (String × PyVal)) (C : List String)
    (hrun : flattenLoop ev t [] [] = .ok (F, C))
    (hinj : ∀ f ∈ fieldsOf t, ∀ g ∈ fieldsOf t,
      tupleKey (some f) = tupleKey (some g) → f = g) :
    ∀ f ∈ fieldsOf t, ∃ v, lookupVal F (tupleKey (some f)) = some v
      ∧ flatResolve ev f = .ok v ∧ (tupleKey (some f), v) ∈ F := by
  intro f hf
  obtain ⟨v, hv⟩ := Option.isSome_iff_exists.mp
    (flattenLoop_covers ev t [] [] F C hrun f hf)
  have hmem := lookupVal_mem hv
  rcases flattenLoop_entries ev t [] [] F C hrun _ hmem with hin | ⟨g, hg, hkey, hres⟩
  · simp at hin
  · have hgf : g = f := hinj g hg f hf hkey
    subst hgf
    exact ⟨v, hv, hres, hmem⟩

theorem flatResolve_factor (ev : FEvent) (f : FieldRef) :
    flatResolve ev f =
      match getFieldCall ev f.name with
      | .error e => .error e
      | .ok v1 =>
        match f.conv with
        | some 's' => (pyStr v1).map PyVal.str
        | some 'r' => (pyRepr v1).map PyVal.str
        | _ => .ok v1 := by
  unfold flatResolve getFieldCall
  cases lookupVal ev.fields ((stripCall f.name).getD f.name) with
  | none => rfl
  | some fv =>
    cases h : (if (stripCall f.name).isSome then pyCall fv
        else .ok fv : Except String PyVal) with
    | error e => simp [h]
    | ok v1 => simp [h]

theorem render_agree (ev : FEvent) (F : List (String × PyVal)) :
    ∀ (t : Template) (acc : String),
      (∀ p ∈ t, ∃ f, p.2 = some f ∧ f.spec = ""
        ∧ (f.conv = none ∨ f.conv = some 's' ∨ f.conv = some 'r')) →
      (∀ f ∈ fieldsOf t, ∃ v, lookupVal F (tupleKey (some f)) = some v
        ∧ flatResolve ev f = .ok v ∧ (pyStr v).isOk = true) →
      flatFormatGo F t acc = formatWithCallGo ev t acc
        ∧ (flatFormatGo F t acc).isOk = true := by
  intro t
  induction t with
  | nil => intro acc _ _; exact ⟨rfl, rfl⟩
  | cons p rest ih =>
    intro acc hshape hres
    obtain ⟨f, hp2, hspec, hconv⟩ := hshape p (List.mem_cons_self _ _)
    have hfmem : f ∈ fieldsOf (p :: rest) := by
      rw [fieldsOf_cons_some hp2]
      exact List.mem_cons_self _ _
    obtain ⟨v, hlook, hresv, hstrok⟩ := hres f hfmem
    obtain ⟨sv, hsv⟩ : ∃ sv, pyStr v = .ok sv := by
      cases hs : pyStr v with
      | error e => rw [hs] at hstrok; cases hstrok
      | ok sv => exact ⟨sv, rfl⟩
    have hflat : flatFormatGo F (p :: rest) acc
        = flatFormatGo F rest (acc ++ p.1 ++ sv) := by
      rw [flatFormatGo, hp2, hlook]
      dsimp only
      rw [hsv]
    rw [flatResolve_factor] at hresv
    have hcall : formatWithCallGo ev (p :: rest) acc
        = formatWithCallGo ev rest (acc ++ p.1 ++ sv) := by
      rw [formatWithCallGo, hp2]
      dsimp only
      cases hgf : getFieldCall ev f.name with
      | error e =>
        rw [hgf] at hresv
        dsimp only at hresv
        cases hresv
      | ok v1 =>
        rw [hgf] at hresv
        dsimp only at hresv
        have hcf : convertField v1 f.conv = .ok v := by
          rcases hconv with hc | hc | hc <;> rw [hc] at hresv ⊢ <;>
            simpa [convertField] using hresv
        dsimp only
        rw [hcf]
        dsimp only
        have hff : formatField v f.spec = .ok sv := by
          rw [hspec]
          simpa [formatField] using hsv
        rw [hff]
    have hrest := ih (acc ++ p.1 ++ sv)
      (fun q hq => hshape q (List.mem_cons_of_mem _ hq))
      (fun g hg => hres g (fieldsOf_cons_sub hg))
    exact ⟨by rw [hflat, hcall, hrest.1], by rw [hflat]; exact hrest.2⟩

/-- C1 counterexample: the round-trip identity fails as stated.  For the
template "\x7bx:3\x7d" flattening succeeds but the flat path drops the
width spec, rendering "a" where direct formatting renders "a  "; for the
template "\x7bx\x7d done" flattenEvent itself raises AttributeError on
the trailing-literal parse tuple; and for the template "\x7bx!a\x7d" the
flat path renders "v" while direct formatting degrades to an
"Unable to format" string, because flattenEvent treats the unknown
conversion as the identity while vformat raises on it. -/
theorem c1_counterexample :
    (flattenEventE c1SpecEvent = .ok (c1SpecFlattened, [])
      ∧ formatEventE c1SpecFlattened = .ok "a"
      ∧ formatEventE c1SpecEvent = .ok "a  "
      ∧ formatEventE c1SpecFlattened ≠ formatEventE c1SpecEvent)
    ∧ (flattenEventE c1TrailingEvent
        = .error "AttributeError: NoneType object has no attribute endswith")
    ∧ (flattenEventE c1ConvEvent = .ok (c1ConvFlattened, [])
      ∧ formatEventE c1ConvFlattened = .ok "v"
      ∧ formatEventE c1ConvFlattened ≠ formatEventE c1ConvEvent) := by
  refine ⟨⟨rfl, rfl, rfl, ?_⟩, rfl, ⟨rfl, rfl, ?_⟩⟩
  · intro h
    rw [show formatEventE c1SpecFlattened = Except.ok "a" from rfl,
      show formatEventE c1SpecEvent = Except.ok "a  " from rfl] at h
    injection h with h
    exact absurd h (by decide)
  · intro h
    rw [show formatEventE c1ConvFlattened = Except.ok "v" from rfl,
      show formatEventE c1ConvEvent = Except.ok
        ("Unable to format event \x7b'log_format': <format>, 'x': 'v'\x7d: "
          ++ "ValueError: Unknown conversion specifier") from rfl] at h
    injection h with h
    exact absurd h (by decide)

/-- C1 amended: the round-trip identity does hold for the templates the
flattener handles faithfully — every parse tuple carries a field, every
format spec is empty, every conversion is one of none, s, r, distinct
fields have distinct cache keys (as Formatter.parse guarantees, since
parsed names cannot contain the key separators), flattening succeeds, and
every cached value renders without error: then formatting the flattened
event yields exactly the text of formatting the original event. -/
theorem c1_amended_roundtrip_identity
    (ev evf : FEvent) (t : Template) (calls : List String)
    (hfl : ev.logFlattened = none)
    (hfmt : ev.logFormat = some (.text t))
    (hshape : ∀ p ∈ t, ∃ f, p.2 = some f ∧ f.spec = ""
      ∧ (f.conv = none ∨ f.conv = some 's' ∨ f.conv = some 'r'))
    (hinj : ∀ f ∈ fieldsOf t, ∀ g ∈ fieldsOf t,
      tupleKey (some f) = tupleKey (some g) → f = g)
    (hok : flattenEventE ev = .ok (evf, calls))
    (hstr : ∀ kv ∈ evf.logFlattened.getD [], (pyStr kv.2).isOk = true) :
    ∃ s, formatEventE evf = .ok s ∧ formatEventE ev = .ok s := by
  unfold flattenEventE at hok
  rw [hfmt] at hok
  dsimp only at hok
  cases hrun : flattenLoop ev t [] [] with
  | error e =>
    rw [hrun] at hok
    cases hok
  | ok FC =>
    obtain ⟨F, C⟩ := FC
    rw [hrun] at hok
    dsimp only at hok
    injection hok with hok
    injection hok with h1 h2
    have hfl2 : evf.logFlattened = some F := by rw [← h1]
    have hfmt2 : evf.logFormat = some (.text t) := by rw [← h1]
    rw [hfl2] at hstr
    simp only [Option.getD] at hstr
    have hresolved := flatten_resolved ev t F C hrun hinj
    have hrender := render_agree ev F t "" hshape
      (fun f hf => by
        obtain ⟨v, hlook, hres, hmem⟩ := hresolved f hf
        exact ⟨v, hlook, hres, hstr (tupleKey (some f), v) hmem⟩)
    obtain ⟨s, hs⟩ : ∃ s, flatFormatGo F t "" = .ok s := by
      cases hfg : flatFormatGo F t "" with
      | error e =>
        have h2 := hrender.2
        rw [hfg] at h2
        cases h2
      | ok s => exact ⟨s, rfl⟩
    refine ⟨s, ?_, ?_⟩
    · unfold formatEventE formatEventBody flatFormatE
      rw [hfl2]
      dsimp only
      rw [hfmt2]
      dsimp only
      rw [hs]
      simp
    · unfold formatEventE formatEventBody
      rw [hfl, hfmt]
      dsimp only
      unfold formatWithCall
      rw [← hrender.1, hs]
      simp

/-- C1 amended witness: for the template "\x7bx\x7d - \x7by()!r\x7d"
over x = "a" and a thunk y returning 5, both paths render "a - 5". -/
theorem c1_amended_witness :
    ∃ s, formatEventE { c1WitnessEvent with
        logFlattened := some [("x!:", PyVal.str "a"), ("y()!r:", PyVal.str "5")] }
      = .ok s
    ∧ formatEventE c1WitnessEvent = .ok s := by
  refine c1_amended_roundtrip_identity c1WitnessEvent _ _ ["y"] rfl rfl ?_ ?_ rfl ?_
  · intro p hp
    simp only [c1WitnessEvent, List.mem_cons, List.not_mem_nil, or_false] at hp
    rcases hp with h | h <;> subst h
    · exact ⟨⟨"x", "", none⟩, rfl, rfl, Or.inl rfl⟩
    · exact ⟨⟨"y()", "", some 'r'⟩, rfl, rfl, Or.inr (Or.inr rfl)⟩
  · decide
  · decide

theorem callKeysGo_congr (n : String) :
    ∀ (t : Template) (s1 s2 : List String),
      (∀ k, k ∈ s1 ↔ k ∈ s2) → callKeysGo n s1 t = callKeysGo n s2 t := by
  intro t
  induction t with
  | nil => intro s1 s2 _; rfl
  | cons p rest ih =>
    intro s1 s2 hequiv
    rw [callKeysGo, callKeysGo]
    by_cases hm : tupleKey p.2 ∈ s1
    · rw [if_pos hm, if_pos ((hequiv _).mp hm)]
      exact ih s1 s2 hequiv
    · rw [if_neg hm, if_neg (fun hm2 => hm ((hequiv _).mpr hm2))]
      have hext : ∀ k, k ∈ tupleKey p.2 :: s1 ↔ k ∈ tupleKey p.2 :: s2 := by
        intro k
        simp only [List.mem_cons]
        exact or_congr Iff.rfl (hequiv k)
      rw [ih (tupleKey p.2 :: s1) (tupleKey p.2 :: s2) hext]

theorem flattenLoop_callCount (ev : FEvent) (n : String) :
    ∀ (t : Template) (fields : List (String × PyVal)) (calls : List String)
      (F : List (String × PyVal)) (C : List String),
      flattenLoop ev t fields calls = .ok (F, C) →
      C.count n = calls.count n + callKeysGo n (fields.map Prod.fst) t := by
  intro t
  induction t with
  | nil =>
    intro fields calls F C h
    injection h with h
    injection h with h1 h2
    rw [← h2, callKeysGo]
    omega
  | cons p rest ih =>
    intro fields calls F C h
    rw [flattenLoop] at h
    rw [callKeysGo]
    by_cases hc : (lookupVal fields (tupleKey p.2)).isSome = true
    · rw [if_pos hc] at h
      rw [if_pos ((lookupVal_isSome_iff _ _).mp hc)]
      exact ih fields calls F C h
    · rw [if_neg hc] at h
      rw [if_neg (fun hm => hc ((lookupVal_isSome_iff _ _).mpr hm))]
      cases hp : p.2 with
      | none =>
        rw [hp] at h
        dsimp only at h
        cases h
      | some f =>
        rw [hp] at h
        dsimp only at h
        cases hr : flatResolve ev f with
        | error e =>
          rw [hr] at h
          dsimp only at h
          cases h
        | ok v2 =>
          rw [hr] at h
          dsimp only at h
          have hrec := ih _ _ F C h
          have hseen := callKeysGo_congr n rest
            ((fields ++ [(tupleKey (some f), v2)]).map Prod.fst)
            (tupleKey p.2 :: fields.map Prod.fst)
            (by intro k; simp [hp, or_comm])
          have hcount : List.count n (match stripCall f.name with
              | some base => calls ++ [base]
              | none => calls)
              = List.count n calls + (if stripCall f.name = some n then 1 else 0) := by
            cases hsc : stripCall f.name with
            | some base =>
              dsimp only
              by_cases hbn : base = n
              · subst hbn
                simp [List.count_append]
              · simp [List.count_append, List.count_singleton', hbn]
            | none =>
              dsimp only
              simp
          rw [hrec, hseen, hcount, hp]
          dsimp only
          omega

/-- C8: during flattenEvent, the number of invocations of the thunk behind
a call-marked field n is exactly the number of distinct cache keys among
the template tuples referencing n with the call marker, computed under the
cache discipline of the loop (a key already cached — by any earlier tuple
— is skipped).  Since the flatKey is a function of the (field name, format
spec, conversion) triple, the thunk is invoked at most once per distinct
triple however many times that triple is referenced, while two references
with different conversions carry different keys and are each resolved
independently. -/
theorem c8_call_once_per_distinct_key
    (ev evf : FEvent) (t : Template) (calls : List String) (n : String)
    (hfmt : ev.logFormat = some (.text t))
    (hok : flattenEventE ev = .ok (evf, calls)) :
    calls.count n = callKeysGo n [] t := by
  unfold flattenEventE at hok
  rw [hfmt] at hok
  dsimp only at hok
  cases hrun : flattenLoop ev t [] [] with
  | error e =>
    rw [hrun] at hok
    cases hok
  | ok FC =>
    obtain ⟨F, C⟩ := FC
    rw [hrun] at hok
    dsimp only at hok
    injection hok with hok
    injection hok with h1 h2
    have hcc := flattenLoop_callCount ev n t [] [] F C hrun
    rw [h2] at hcc
    simpa using hcc

/-- C8 witness: for "\x7bx()\x7d \x7bx()\x7d" (the same triple twice)
the thunk is invoked once; for "\x7bx()!s\x7d \x7bx()!r\x7d" (same
field, two conversions) it is invoked twice. -/
theorem c8_witness :
    List.count "x" ["x"] = callKeysGo "x" [] c8OnceTemplate
    ∧ List.count "x" ["x", "x"] = callKeysGo "x" [] c8TwiceTemplate
    ∧ callKeysGo "x" [] c8OnceTemplate = 1
    ∧ callKeysGo "x" [] c8TwiceTemplate = 2 :=
  ⟨c8_call_once_per_distinct_key c8OnceEvent c8OnceFlattened
      c8OnceTemplate ["x"] "x" rfl rfl,
   c8_call_once_per_distinct_key c8TwiceEvent c8TwiceFlattened
      c8TwiceTemplate ["x", "x"] "x" rfl rfl,
   by decide, by decide⟩

/-! ## LogBeginner lemmas -/

theorem deliveriesFor_cons_ext (n : Nat) (rest : List GObs) (e : GEvent) :
    deliveriesFor (GObs.ext n :: rest) e = (n, e) :: deliveriesFor rest e := by
  simp [deliveriesFor, List.filterMap_cons]

theorem foldl_deliverStep_extOnly (e : GEvent) :
    ∀ (obsL : List GObs) (st : LogState), GObs.temp ∉ obsL →
      obsL.foldl (deliverStep e) st
        = { st with delivered := st.delivered ++ deliveriesFor obsL e } := by
  intro obsL
  induction obsL with
  | nil =>
    intro st _
    simp [deliveriesFor]
  | cons o rest ih =>
    intro st htemp
    cases o with
    | temp => exact absurd (List.mem_cons_self _ _) htemp
    | ext n =>
      rw [List.foldl_cons]
      rw [show deliverStep e st (GObs.ext n)
        = { st with delivered := st.delivered ++ [(n, e)] } from rfl]
      rw [ih _ (fun hm => htemp (List.mem_cons_of_mem _ hm))]
      rw [deliveriesFor_cons_ext]
      simp

theorem publishOne_extOnly (st : LogState) (e : GEvent)
    (htemp : GObs.temp ∉ st.observers) :
    publishOne st e = { st with delivered := st.delivered ++ deliveriesFor st.observers e } := by
  rw [publishOne, foldl_deliverStep_extOnly e st.observers st htemp]

theorem replay_deliveries :
    ∀ (events : List GEvent) (st : LogState), GObs.temp ∉ st.observers →
      events.foldl publishOne st
        = { st with delivered :=
              st.delivered ++ events.flatMap (fun e => deliveriesFor st.observers e) } := by
  intro events
  induction events with
  | nil =>
    intro st _
    simp
  | cons e rest ih =>
    intro st htemp
    rw [List.foldl_cons, publishOne_extOnly st e htemp]
    rw [ih { st with delivered := st.delivered ++ deliveriesFor st.observers e } htemp]
    simp

theorem publishAll_buffering :
    ∀ (events : List GEvent) (st : LogState),
      st.observers = [GObs.temp] →
      (∀ e ∈ events, (criticalSinkCall e).isOk = true) →
      st.buffer.length + events.length ≤ BUFFER_MAXIMUM →
      (events.foldl publishOne st).buffer = st.buffer ++ events
      ∧ (events.foldl publishOne st).delivered = st.delivered
      ∧ (events.foldl publishOne st).observers = st.observers
      ∧ (events.foldl publishOne st).tempPresent = st.tempPresent
      ∧ (events.foldl publishOne st).previousBegin = st.previousBegin := by
  intro events
  induction events with
  | nil =>
    intro st _ _ _
    simp
  | cons e rest ih =>
    intro st hobs hsink hlen
    have hb : st.buffer.length < BUFFER_MAXIMUM := by
      simp only [List.length_cons] at hlen
      omega
    have hpush : bufferPush st.buffer e = st.buffer ++ [e] := by
      rw [bufferPush, if_pos hb]
    have hstep : publishOne st e =
        (match criticalSinkCall e with
         | .ok none => { st with buffer := st.buffer ++ [e] }
         | .ok (some line) =>
            { st with buffer := st.buffer ++ [e], stream := st.stream ++ [line] }
         | .error _ =>
            { st with buffer := bufferPush (st.buffer ++ [e]) failureEvent }) := by
      rw [publishOne, hobs, List.foldl_cons, List.foldl_nil]
      rw [show deliverStep e st GObs.temp
        = (match criticalSinkCall e with
           | .ok none => { st with buffer := bufferPush st.buffer e }
           | .ok (some line) =>
              { st with buffer := bufferPush st.buffer e, stream := st.stream ++ [line] }
           | .error _ =>
              { st with buffer := bufferPush (bufferPush st.buffer e) failureEvent })
        from rfl]
      rw [hpush, hobs]
    cases hcs : criticalSinkCall e with
    | error msg =>
      have := hsink e (List.mem_cons_self _ _)
      rw [hcs] at this
      cases this
    | ok o =>
      rw [List.foldl_cons]
      cases o with
      | none =>
        rw [hstep, hcs]
        have hres := ih { st with buffer := st.buffer ++ [e] } hobs
          (fun x hx => hsink x (List.mem_cons_of_mem _ hx))
          (by simp at hlen ⊢; omega)
        simp only at hres
        refine ⟨?_, hres.2.1, hres.2.2.1, hres.2.2.2.1, hres.2.2.2.2⟩
        rw [hres.1]
        simp
      | some line =>
        rw [hstep, hcs]
        have hres := ih
          { st with buffer := st.buffer ++ [e], stream := st.stream ++ [line] } hobs
          (fun x hx => hsink x (List.mem_cons_of_mem _ hx))
          (by simp at hlen ⊢; omega)
        simp only at hres
        refine ⟨?_, hres.2.1, hres.2.2.1, hres.2.2.2.1, hres.2.2.2.2⟩
        rw [hres.1]
        simp

theorem addObservers_cons (l : List GObs) (n : Nat) (rest : List Nat) :
    addObservers l (n :: rest)
      = addObservers (if l.contains (GObs.ext n) then l else l ++ [GObs.ext n]) rest := rfl

theorem addObservers_temp_head :
    ∀ (ns : List Nat) (l : List GObs),
      addObservers (GObs.temp :: l) ns = GObs.temp :: addObservers l ns := by
  intro ns
  induction ns with
  | nil => intro l; rfl
  | cons n rest ih =>
    intro l
    rw [addObservers_cons, addObservers_cons]
    have hcontains : (GObs.temp :: l).contains (GObs.ext n) = l.contains (GObs.ext n) := by
      rw [List.contains_cons]
      simp
    rw [hcontains]
    by_cases hc : l.contains (GObs.ext n) = true
    · rw [if_pos hc, if_pos hc]
      exact ih l
    · rw [if_neg hc, if_neg hc]
      rw [show GObs.temp :: l ++ [GObs.ext n] = GObs.temp :: (l ++ [GObs.ext n]) from rfl]
      exact ih (l ++ [GObs.ext n])

theorem addObservers_no_temp :
    ∀ (ns : List Nat) (l : List GObs),
      GObs.temp ∉ l → GObs.temp ∉ addObservers l ns := by
  intro ns
  induction ns with
  | nil => intro l h; exact h
  | cons n rest ih =>
    intro l h
    rw [addObservers_cons]
    by_cases hc : l.contains (GObs.ext n) = true
    · rw [if_pos hc]
      exact ih l h
    · rw [if_neg hc]
      refine ih _ ?_
      intro hm
      rcases List.mem_append.mp hm with hm | hm
      · exact h hm
      · simp at hm

theorem addObservers_nodup :
    ∀ (ns : List Nat) (l : List GObs), l.Nodup → (addObservers l ns).Nodup := by
  intro ns
  induction ns with
  | nil => intro l h; exact h
  | cons n rest ih =>
    intro l h
    rw [addObservers_cons]
    by_cases hc : l.contains (GObs.ext n) = true
    · rw [if_pos hc]
      exact ih l h
    · rw [if_neg hc]
      refine ih _ ?_
      rw [List.nodup_append]
      refine ⟨h, List.nodup_singleton _, ?_⟩
      intro x hx hx2
      simp only [List.mem_singleton] at hx2
      subst hx2
      exact hc (List.elem_eq_true_of_mem hx)

theorem filter_no_temp :
    ∀ (l : List GObs), GObs.temp ∉ l →
      l.filter (fun o => decide (o ≠ GObs.temp)) = l := by
  intro l h
  apply List.filter_eq_self.mpr
  intro o ho
  simp only [decide_eq_true_eq]
  intro heq
  subst heq
  exact h ho

theorem deliveredTo_append (n : Nat) (l1 l2 : List (Nat × GEvent)) :
    deliveredTo n (l1 ++ l2) = deliveredTo n l1 ++ deliveredTo n l2 := by
  simp [deliveredTo, List.filterMap_append]

theorem deliveredTo_deliveriesFor (n : Nat) (e : GEvent) :
    ∀ (obsL : List GObs), obsL.Nodup →
      deliveredTo n (deliveriesFor obsL e)
        = if GObs.ext n ∈ obsL then [e] else [] := by
  intro obsL
  induction obsL with
  | nil =>
    intro _
    simp [deliveriesFor, deliveredTo]
  | cons o rest ih =>
    intro hnd
    have hnd2 := hnd.of_cons
    cases o with
    | temp =>
      rw [show deliveriesFor (GObs.temp :: rest) e = deliveriesFor rest e by
        simp [deliveriesFor, List.filterMap_cons]]
      rw [ih hnd2]
      simp
    | ext m =>
      rw [deliveriesFor_cons_ext]
      by_cases hmn : m = n
      · subst hmn
        rw [show deliveredTo m ((m, e) :: deliveriesFor rest e)
          = e :: deliveredTo m (deliveriesFor rest e) by simp [deliveredTo]]
        rw [ih hnd2]
        have hnotin : GObs.ext m ∉ rest := by
          intro hm
          exact (List.nodup_cons.mp hnd).1 hm
        rw [if_neg hnotin, if_pos (List.mem_cons_self _ _)]
      · rw [show deliveredTo n ((m, e) :: deliveriesFor rest e)
          = deliveredTo n (deliveriesFor rest e) by simp [deliveredTo, hmn]]
        rw [ih hnd2]
        have : (GObs.ext n ∈ GObs.ext m :: rest) ↔ (GObs.ext n ∈ rest) := by
          simp only [List.mem_cons]
          constructor
          · rintro (h | h)
            · injection h with h
              exact absurd h.symm hmn
            · exact h
          · exact Or.inr
        rw [show (if GObs.ext n ∈ GObs.ext m :: rest then [e] else [])
          = (if GObs.ext n ∈ rest then [e] else []) by
            by_cases hmem : GObs.ext n ∈ rest
            · rw [if_pos hmem, if_pos (this.mpr hmem)]
            · rw [if_neg hmem, if_neg (fun hm => hmem (this.mp hm))]]

theorem deliveredTo_flatMap (n : Nat) (obsL : List GObs)
    (hnd : obsL.Nodup) (hmem : GObs.ext n ∈ obsL) :
    ∀ (events : List GEvent),
      deliveredTo n (events.flatMap (fun e => deliveriesFor obsL e)) = events := by
  intro events
  induction events with
  | nil => rfl
  | cons e rest ih =>
    rw [List.flatMap_cons, deliveredTo_append, deliveredTo_deliveriesFor n e obsL hnd,
      if_pos hmem, ih]
    rfl

/-- C3: every event published to the beginner's publisher before the first
beginLoggingTo lands in the buffer in arrival order and reaches no
external observer; the first beginLoggingTo attaches the given observers,
detaches the temporary observer, and replays the buffered events in
original order exactly once to each newly attached observer; a second
beginLoggingTo attaches its observers, replays nothing, and emits exactly
one MORE_THAN_ONCE_WARNING event through the publisher.  The hypotheses
restrict to events that neither overflow the bounded buffer nor make the
critical sink raise (a raising sink appends an extra failure-report event
to the buffer alongside the published events). -/
theorem c3_begin_logging_state_machine
    (events : List GEvent) (obs1 obs2 : List Nat) (l1 l2 : Nat)
    (hsink : ∀ e ∈ events, (criticalSinkCall e).isOk = true)
    (hlen : events.length ≤ BUFFER_MAXIMUM) :
    (events.foldl publishOne initState).buffer = events
    ∧ (events.foldl publishOne initState).delivered = []
    ∧ (beginLoggingTo (events.foldl publishOne initState) obs1 l1).tempPresent = false
    ∧ (beginLoggingTo (events.foldl publishOne initState) obs1 l1).observers
        = addObservers [] obs1
    ∧ (beginLoggingTo (events.foldl publishOne initState) obs1 l1).buffer = events
    ∧ (beginLoggingTo (events.foldl publishOne initState) obs1 l1).previousBegin = some l1
    ∧ (∀ n, GObs.ext n ∈ addObservers [] obs1 →
        deliveredTo n (beginLoggingTo (events.foldl publishOne initState) obs1 l1).delivered
          = events)
    ∧ (beginLoggingTo
          (beginLoggingTo (events.foldl publishOne initState) obs1 l1) obs2 l2).delivered
        = (beginLoggingTo (events.foldl publishOne initState) obs1 l1).delivered
          ++ deliveriesFor (addObservers (addObservers [] obs1) obs2) warningEvent
    ∧ (beginLoggingTo
          (beginLoggingTo (events.foldl publishOne initState) obs1 l1) obs2 l2).buffer
        = events
    ∧ (beginLoggingTo
          (beginLoggingTo (events.foldl publishOne initState) obs1 l1) obs2 l2).observers
        = addObservers (addObservers [] obs1) obs2
    ∧ (beginLoggingTo
          (beginLoggingTo (events.foldl publishOne initState) obs1 l1) obs2 l2).previousBegin
        = some l2 := by
  have h1 := publishAll_buffering events initState rfl hsink
    (by simpa [initState] using hlen)
  have h1buf : (events.foldl publishOne initState).buffer = events := by
    rw [h1.1]
    rfl
  have h1del : (events.foldl publishOne initState).delivered = [] := h1.2.1
  have h1obs : (events.foldl publishOne initState).observers = [GObs.temp] := h1.2.2.1
  have h1temp : (events.foldl publishOne initState).tempPresent = true := h1.2.2.2.1
  have hnotemp : GObs.temp ∉ addObservers [] obs1 :=
    addObservers_no_temp obs1 [] (by simp)
  have hnd : (addObservers [] obs1).Nodup := addObservers_nodup obs1 [] (by simp)
  have hfilter : (GObs.temp :: addObservers [] obs1).filter
      (fun o => decide (o ≠ GObs.temp)) = addObservers [] obs1 := by
    rw [List.filter_cons]
    rw [show (decide (GObs.temp ≠ GObs.temp)) = false by decide]
    simp only [Bool.false_eq_true, if_false]
    exact filter_no_temp _ hnotemp
  have hs2 : beginLoggingTo (events.foldl publishOne initState) obs1 l1
      = { observers := addObservers [] obs1,
          buffer := events,
          stream := (events.foldl publishOne initState).stream,
          delivered := events.flatMap (fun e => deliveriesFor (addObservers [] obs1) e),
          tempPresent := false,
          previousBegin := some l1 } := by
    rw [beginLoggingTo]
    dsimp only
    rw [h1obs, h1temp, addObservers_temp_head]
    rw [if_pos rfl]
    rw [hfilter, h1buf]
    rw [replay_deliveries events _ (by dsimp only; exact hnotemp)]
    dsimp only
    rw [h1del]
    rfl
  have hnotemp2 : GObs.temp ∉ addObservers (addObservers [] obs1) obs2 :=
    addObservers_no_temp obs2 _ hnotemp
  have hs3 : beginLoggingTo (beginLoggingTo (events.foldl publishOne initState) obs1 l1)
        obs2 l2
      = { observers := addObservers (addObservers [] obs1) obs2,
          buffer := events,
          stream := (events.foldl publishOne initState).stream,
          delivered :=
            events.flatMap (fun e => deliveriesFor (addObservers [] obs1) e)
              ++ deliveriesFor (addObservers (addObservers [] obs1) obs2) warningEvent,
          tempPresent := false,
          previousBegin := some l2 } := by
    rw [hs2, beginLoggingTo]
    dsimp only
    rw [if_neg (by simp)]
    rw [publishOne_extOnly _ _ (by dsimp only; exact hnotemp2)]
  refine ⟨h1buf, h1del, ?_, ?_, ?_, ?_, ?_, ?_, ?_, ?_, ?_⟩
  · rw [hs2]
  · rw [hs2]
  · rw [hs2]
  · rw [hs2]
  · intro n hn
    rw [hs2]
    exact deliveredTo_flatMap n (addObservers [] obs1) hnd hn events
  · rw [hs3, hs2]
  · rw [hs3]
  · rw [hs3]
  · rw [hs3]

/-- C3 witness: one info event published before logging begins is buffered
and then replayed to observer 7 attached by the first beginLoggingTo; the
second beginLoggingTo delivers exactly one warning event to observers 7
and 8 and replays nothing. -/
theorem c3_witness :
    ([c3Event].foldl publishOne initState).buffer = [c3Event]
    ∧ deliveredTo 7 (beginLoggingTo ([c3Event].foldl publishOne initState) [7] 10).delivered
        = [c3Event]
    ∧ (beginLoggingTo
          (beginLoggingTo ([c3Event].foldl publishOne initState) [7] 10) [8] 20).delivered
        = (beginLoggingTo ([c3Event].foldl publishOne initState) [7] 10).delivered
          ++ deliveriesFor (addObservers (addObservers [] [7]) [8]) warningEvent := by
  have h := c3_begin_logging_state_machine [c3Event] [7] [8] 10 20
    (by intro e he; simp only [List.mem_singleton] at he; subst he; rfl)
    (by decide)
  exact ⟨h.1, h.2.2.2.2.2.2.1 7 (by decide), h.2.2.2.2.2.2.2.1⟩

end TwistedLogger
